import Mathlib

/-!
Verification development for the syngo file-tree synchronization tool.

The Go sources (`syngo.go`, `syncSrc.go`, `syncTgt.go`) are embedded
shallowly: filesystem system calls are replaced by explicit oracle records
describing their outcomes, machine integers (`int64`) by `Int`, Go strings
by Lean `String` manipulated through their character lists, and the
per-entry loop bodies of the worker goroutines by pure step functions that
return the updated statistics together with the log messages emitted and
the filesystem actions attempted.  The channel / WaitGroup coordination of
`main`, `checkTgt` and `chanCloser` is embedded as a small labelled
transition system.
-/

namespace Syngo

/-! ### Go `os.FileMode` bits (from Go's `io/fs` package) -/

/-- Go `os.ModeDir`: bit 31. -/
def ModeDir : Nat := 2 ^ 31

/-- Go `os.ModeSymlink`: bit 27. -/
def ModeSymlink : Nat := 2 ^ 27

/-- Go `os.ModeDevice`: bit 26. -/
def ModeDevice : Nat := 2 ^ 26

/-- Go `os.ModeNamedPipe`: bit 25. -/
def ModeNamedPipe : Nat := 2 ^ 25

/-- Go `os.ModeSocket`: bit 24. -/
def ModeSocket : Nat := 2 ^ 24

/-- Go `os.ModeCharDevice`: bit 21. -/
def ModeCharDevice : Nat := 2 ^ 21

/-- Go `os.ModeIrregular`: bit 19. -/
def ModeIrregular : Nat := 2 ^ 19

/-- Go `os.ModeType`: the union of all type bits. -/
def ModeType : Nat :=
  ModeDir ||| ModeSymlink ||| ModeNamedPipe ||| ModeSocket ||| ModeDevice |||
    ModeCharDevice ||| ModeIrregular

/-- Go `FileMode.IsRegular`: no type bit is set. -/
def isRegularMode (m : Nat) : Bool := m &&& ModeType == 0

/-- Go `FileMode.IsDir`: `m & ModeDir != 0`. -/
def isDirMode (m : Nat) : Bool := m &&& ModeDir != 0

/-- The test `m & os.ModeSymlink != 0` used throughout the Go sources. -/
def isSymlinkMode (m : Nat) : Bool := m &&& ModeSymlink != 0

/-! ### The data model (`syngo.go`) -/

/-- The fields of Go's `os.FileInfo` that the program consults:
`Size()`, `Mode()` and `ModTime()` (the latter abstracted to an integer
timestamp, compared only for equality). -/
structure FileInfoData where
  size : Int
  mode : Nat
  modTime : Int
deriving DecidableEq

/-- Type `fileInfo` from `syngo.go`: the record flowing through the pipeline's
channels.  `linkPath` is the zero value `""` for non-symlink entries. -/
structure fileInfo where
  info : FileInfoData
  path : String
  linkPath : String
deriving DecidableEq

/-- Type `syncStats` from `syngo.go`. -/
structure syncStats where
  numFiles : Int
  numBytes : Int
deriving DecidableEq

/-! ### Go string and path operations

Go strings are byte slices; we embed them as Lean strings and operate on
their character lists, which is faithful for the ASCII paths manipulated
here. -/

/-- Go `strings.HasPrefix`. -/
def hasPref (s pre : String) : Bool := pre.data.isPrefixOf s.data

/-- Go `strings.TrimPrefix`: drop `pre` from the front of `s` when it is a
prefix, otherwise return `s` unchanged. -/
def trimPref (s pre : String) : String :=
  if pre.data.isPrefixOf s.data then ⟨s.data.drop pre.data.length⟩ else s

/-- Go `path.IsAbs` / `filepath.IsAbs` on unix: the path starts with a
separator. -/
def isAbs (p : String) : Bool := p.data.head? == some '/'

/-- Split a character list on `/` into path components. -/
def splitOnSlash : List Char → List (List Char)
  | [] => [[]]
  | c :: rest =>
    if c = '/' then [] :: splitOnSlash rest
    else
      match splitOnSlash rest with
      | [] => [[c]]
      | h :: t => (c :: h) :: t

/-- The component-processing loop of Go `path.Clean`: empty and `.`
components are dropped, `..` pops the last component (kept literally at
the front of a relative path, dropped at the root of a rooted path).
`acc` holds the output components in reverse. -/
def cleanComps (rooted : Bool) (acc : List (List Char)) :
    List (List Char) → List (List Char)
  | [] => acc.reverse
  | c :: rest =>
    if c = [] ∨ c = ['.'] then cleanComps rooted acc rest
    else if c = ['.', '.'] then
      match acc with
      | [] =>
        if rooted then cleanComps rooted [] rest
        else cleanComps rooted [['.', '.']] rest
      | a :: as =>
        if a = ['.', '.'] then cleanComps rooted (c :: a :: as) rest
        else cleanComps rooted as rest
    else cleanComps rooted (c :: acc) rest

/-- Interleave `/` between components. -/
def joinComps : List (List Char) → List Char
  | [] => []
  | [c] => c
  | c :: rest => c ++ '/' :: joinComps rest

/-- Go `path.Clean` (equal to `filepath.Clean` on unix). -/
def cleanPath (p : String) : String :=
  if p = "" then "."
  else
    let rooted := isAbs p
    match cleanComps rooted [] (splitOnSlash p.data) with
    | [] => if rooted then "/" else "."
    | cs => ⟨(if rooted then ['/'] else []) ++ joinComps cs⟩

/-- Go `filepath.Join` restricted to the two-argument form used by the
program: join with a separator, then `Clean`. -/
def joinPath (a b : String) : String :=
  if a = "" ∧ b = "" then ""
  else if a = "" then cleanPath b
  else cleanPath (a ++ "/" ++ b)

/-- Everything up to and including the final `/` of a path (the `dir`
half of Go `path.Split`). -/
def takeToLastSlash (l : List Char) : List Char :=
  (l.reverse.dropWhile (fun c => c ≠ '/')).reverse

/-- Go `path.Dir` / `filepath.Dir` on unix: `Clean` of the `Split` dir
half; `"."` when the path has no separator. -/
def dirPath (p : String) : String := cleanPath ⟨takeToLastSlash p.data⟩

/-! ### Staleness Checker: `checkTgt` (`syncTgt.go`)

The loop body of `checkTgt` for one `srcFile` drawn from `fileList`.
The two system calls it makes — `os.Lstat` on the joined target path and
`filepath.EvalSymlinks` on it — are supplied as an oracle record. -/

/-- Outcome of `os.Lstat`: success with the inspected metadata, an error
satisfying `os.IsNotExist`, or any other error. -/
inductive LstatRes where
  | found (info : FileInfoData)
  | errNotExist
  | errOther
deriving DecidableEq

/-- The filesystem answers consulted by one `checkTgt` iteration. -/
structure CheckOracle where
  lstat : LstatRes
  /-- Result of `filepath.EvalSymlinks(path)`: `some` resolved path or `none` on
  error. -/
  evalSymlinks : Option String
deriving DecidableEq

/-- What one `checkTgt` iteration did: whether `srcFile` was sent on
`updateList`, and whether a log message was produced. -/
structure CheckOut where
  forward : Bool
  logged : Bool
deriving DecidableEq

/-- The loop body of `checkTgt` (`syncTgt.go`, lines 76-118). -/
def checkTgtEntry (tgt : String) (srcFile : fileInfo) (o : CheckOracle) :
    CheckOut :=
  let path := joinPath tgt srcFile.path
  match o.lstat with
  | .errNotExist => ⟨true, false⟩
  | .errOther => ⟨false, true⟩
  | .found info =>
    if isSymlinkMode srcFile.info.mode then
      if isSymlinkMode info.mode then
        match o.evalSymlinks with
        | none => ⟨false, false⟩
        | some symp =>
          let relSymPath :=
            if ¬ isAbs symp then trimPref symp (dirPath path ++ "/") else symp
          if relSymPath ≠ srcFile.linkPath then ⟨true, false⟩ else ⟨false, false⟩
      else ⟨true, false⟩
    else
      if srcFile.info.size ≠ info.size ∨ srcFile.info.mode ≠ info.mode ∨
          srcFile.info.modTime ≠ info.modTime then ⟨true, false⟩
      else ⟨false, false⟩

/-! ### Sync Executor: `syncFile` and `syncFiles` (`syncTgt.go`) -/

/-- A filesystem action attempted by a Sync Executor worker. -/
inductive FsAct where
  | openSrc (p : String)
  | create (p : String)
  | copy (src tgt : String)
  | chtimes (p : String) (t : Int)
  | chmod (p : String) (m : Nat)
  | remove (p : String)
  | symlink (target p : String)
deriving DecidableEq

/-- Outcomes of the system calls one `syncFiles` iteration may make. -/
structure SyncOracle where
  /-- whether `os.Open(srcPath)` succeeds. -/
  openOk : Bool
  /-- whether `os.Create(tgtPath)` succeeds. -/
  createOk : Bool
  /-- whether `io.Copy` returns a nil error. -/
  copyOk : Bool
  /-- the byte count returned by `io.Copy` (partial on failure). -/
  copyBytes : Int
  /-- whether `os.Chtimes` succeeds. -/
  chtimesOk : Bool
  /-- whether `os.Chmod` succeeds. -/
  chmodOk : Bool
  /-- whether `os.Lstat(tgtPath)` in the symlink branch returns a nil error. -/
  lstatExists : Bool
  /-- whether `os.Remove(tgtPath)` succeeds. -/
  removeOk : Bool
  /-- whether `os.Symlink` succeeds. -/
  symlinkOk : Bool
deriving DecidableEq

/-- Result of `syncFile`: the returned byte count, whether a non-nil
error was returned, the log messages it printed itself, and the actions
attempted. -/
structure SyncFileRes where
  n : Int
  errReturned : Bool
  logs : List String
  acts : List FsAct
deriving DecidableEq

/-- Function `syncFile` (`syncTgt.go`, lines 129-156): open source, create target,
copy, then set times and mode.  Only `os.Open` and `os.Create` failures
return an error; `io.Copy`, `os.Chtimes` and `os.Chmod` failures are
logged inside and the function still returns `(n, nil)`. -/
def syncFile (srcPath tgtPath : String) (file : fileInfo) (o : SyncOracle) :
    SyncFileRes :=
  if ¬ o.openOk then ⟨0, true, [], [.openSrc srcPath]⟩
  else if ¬ o.createOk then ⟨0, true, [], [.openSrc srcPath, .create tgtPath]⟩
  else
    { n := o.copyBytes
      errReturned := false
      logs :=
        (if o.copyOk then [] else ["copy failed"]) ++
        (if o.chtimesOk then [] else ["chtimes failed"]) ++
        (if o.chmodOk then [] else ["chmod failed"])
      acts := [.openSrc srcPath, .create tgtPath, .copy srcPath tgtPath,
               .chtimes tgtPath file.info.modTime, .chmod tgtPath file.info.mode] }

/-- What one `syncFiles` iteration produced: the updated worker-local
stats, the log messages emitted, and the actions attempted. -/
structure StepOut where
  stats : syncStats
  logs : List String
  acts : List FsAct
deriving DecidableEq

/-- The loop body of `syncFiles` (`syncTgt.go`, lines 18-53) for one
`file` and running stats `st`: regular files go through `syncFile` (a
returned error is logged and skips the `fileCount++`); symlinks remove a
pre-existing target object, then create the link; all other kinds are
skipped. -/
def syncFilesStep (src tgt : String) (st : syncStats) (file : fileInfo)
    (o : SyncOracle) : StepOut :=
  let srcPath := joinPath src file.path
  let tgtPath := joinPath tgt file.path
  let fileMode := file.info.mode
  if isRegularMode fileMode then
    let r := syncFile srcPath tgtPath file o
    if r.errReturned then ⟨st, r.logs ++ ["sync error"], r.acts⟩
    else ⟨⟨st.numFiles + 1, st.numBytes + r.n⟩, r.logs, r.acts⟩
  else if isSymlinkMode fileMode then
    if o.lstatExists then
      if ¬ o.removeOk then ⟨st, ["remove failed"], [.remove tgtPath]⟩
      else if ¬ o.symlinkOk then
        ⟨st, ["symlink failed"], [.remove tgtPath, .symlink file.linkPath tgtPath]⟩
      else
        ⟨⟨st.numFiles + 1, st.numBytes⟩, [],
         [.remove tgtPath, .symlink file.linkPath tgtPath]⟩
    else
      if ¬ o.symlinkOk then ⟨st, ["symlink failed"], [.symlink file.linkPath tgtPath]⟩
      else ⟨⟨st.numFiles + 1, st.numBytes⟩, [], [.symlink file.linkPath tgtPath]⟩
  else ⟨st, [], []⟩

/-- A whole `syncFiles` worker run: fold the loop body over the sequence
of entries received from `updateList`, starting from the zero-valued
`numBytes` / `fileCount` locals; the final stats are what the worker
sends on `syncDone`. -/
def syncFilesRun (src tgt : String) (entries : List (fileInfo × SyncOracle)) :
    syncStats :=
  entries.foldl (fun st e => (syncFilesStep src tgt st e.1 e.2).stats) ⟨0, 0⟩

/-- The aggregation loop in `main` (`syngo.go`, lines 82-87): sum the
per-worker stats received from `syncDone`. -/
def aggregate (l : List syncStats) : syncStats :=
  l.foldl (fun a b => ⟨a.numFiles + b.numFiles, a.numBytes + b.numBytes⟩) ⟨0, 0⟩

/-- The bytes one entry contributes to a worker's `numBytes`: the
`io.Copy` return value when the entry is regular and both `os.Open` and
`os.Create` succeeded, and zero otherwise. -/
def regBytes (file : fileInfo) (o : SyncOracle) : Int :=
  if isRegularMode file.info.mode ∧ o.openOk ∧ o.createOk then o.copyBytes else 0

/-! ### Directory Materializer: `syncDirLayout` (`syncTgt.go`) -/

/-- System-call outcomes for one `syncDirLayout` iteration.  Go's
`os.MkdirAll` creates the path together with all missing ancestors using
the given permission mode, and returns nil when the path already exists
as a directory, so `mkdirAllOk = false` stands for a creation failure
unrelated to pre-existence of the directory. -/
structure DirOracle where
  lstat : LstatRes
  mkdirAllOk : Bool
deriving DecidableEq

/-- What one `syncDirLayout` iteration did: the `MkdirAll` invocation (its
path and permission mode), if any, and whether an error was logged. -/
structure DirOut where
  mkdirAll : Option (String × Nat)
  logged : Bool
deriving DecidableEq

/-- The loop body of `syncDirLayout` (`syncTgt.go`, lines 60-72). -/
def syncDirLayoutEntry (tgt : String) (dir : fileInfo) (o : DirOracle) :
    DirOut :=
  let tgtPath := joinPath tgt dir.path
  match o.lstat with
  | .found _ => ⟨none, false⟩
  | .errNotExist => ⟨some (tgtPath, dir.info.mode), !o.mkdirAllOk⟩
  | .errOther => ⟨none, false⟩

/-! ### Producers: `parseSrcDirs` and `parseSrcFiles` (`syncSrc.go`)

The `filepath.Walk` callback body for one visited node.  The walk itself
supplies the visited path `p`, its `os.FileInfo`, and possibly a non-nil
walk error; `filepath.EvalSymlinks(p)` is an oracle consulted only for
symlinks. -/

/-- One node handed to a `filepath.Walk` callback. -/
structure WalkNode where
  p : String
  info : FileInfoData
  walkErr : Bool
  evalSymlinks : Option String
deriving DecidableEq

/-- What a producer's callback did for one node: the entry sent on its
output channel, if any, and whether it logged. -/
structure VisitOut where
  emitted : Option fileInfo
  logged : Bool
deriving DecidableEq

/-- The `filepath.Walk` callback of `parseSrcDirs` (`syncSrc.go`,
lines 15-29): walk errors are logged and skipped; directories are emitted
with `path = strings.TrimPrefix(p, src)`. -/
def parseSrcDirsVisit (src : String) (node : WalkNode) : VisitOut :=
  if node.walkErr then ⟨none, true⟩
  else
    let relPath := trimPref node.p src
    if isDirMode node.info.mode then ⟨some ⟨node.info, relPath, ""⟩, false⟩
    else ⟨none, false⟩

/-- The `filepath.Walk` callback of `parseSrcFiles` (`syncSrc.go`,
lines 36-64): walk errors are logged and skipped; directories are
skipped; for symlinks the target is resolved with
`filepath.EvalSymlinks`, and a resolution failure makes the callback
return nil at once (no log, nothing emitted); otherwise an entry with
`path = strings.TrimPrefix(p, src + "/")` is emitted. -/
def parseSrcFilesVisit (src : String) (node : WalkNode) : VisitOut :=
  if node.walkErr then ⟨none, true⟩
  else
    let relPath := trimPref node.p (src ++ "/")
    if ¬ isDirMode node.info.mode then
      if isSymlinkMode node.info.mode then
        match node.evalSymlinks with
        | none => ⟨none, false⟩
        | some symp =>
          let relSymPath :=
            if isAbs symp then symp else trimPref symp (dirPath node.p ++ "/")
          ⟨some ⟨node.info, relPath, relSymPath⟩, false⟩
      else ⟨some ⟨node.info, relPath, ""⟩, false⟩
    else ⟨none, false⟩

/-- Spec-side meaning of a link target `t` being "expressed relative to"
a directory `d` whose resolved target is `resolved`: interpreting `t`
relative to `d` yields the resolved target. -/
def expressedRelativeTo (t d resolved : String) : Bool :=
  cleanPath (d ++ "/" ++ t) == cleanPath resolved

/-- Paths the spec calls root-relative and normalized: no leading
separator and no empty, `.` or `..` components. -/
def normalizedPath (s : String) : Bool :=
  ¬ hasPref s "/" &&
    (splitOnSlash s.data).all fun c => c ≠ [] && c ≠ ['.'] && c ≠ ['.', '.']

/-! ### The Checker / chanCloser coordination (`syngo.go`, `syncTgt.go`)

`main` starts `numCheckers` `checkTgt` goroutines after `done.Add(numCheckers)`;
each sends entries on `updateList` while it runs and calls `done.Done()`
exactly once when its input is exhausted; `chanCloser` performs
`done.Wait()` and then `close(updateList)`.  We embed this as a labelled
transition system: a checker may send while (and only while) it is still
running, finishing decrements the WaitGroup counter, and the closer fires
once the counter reaches zero. -/

/-- Shared state of the checker pool, the WaitGroup `done` and the
`updateList` channel. -/
structure PipeState where
  /-- one flag per checker goroutine: `true` while it is still running. -/
  checkers : List Bool
  /-- the WaitGroup counter of `done`. -/
  wg : Nat
  /-- true while `chanCloser` has not yet executed `close(updateList)`. -/
  closerWaiting : Bool
  /-- true once `updateList` has been closed. -/
  queueClosed : Bool
  /-- how many times `close(updateList)` has executed. -/
  closeEvents : Nat
  /-- sends on `updateList` that happened after it was closed. -/
  sendsAfterClose : Nat
deriving DecidableEq

/-- The state right after `main` runs `done.Add(numCheckers)` and starts
the goroutines. -/
def pipeInit (n : Nat) : PipeState :=
  ⟨List.replicate n true, n, true, false, 0, 0⟩

/-- One interleaving step of the checker pool / closer system. -/
inductive PipeStep : PipeState → PipeState → Prop where
  /-- a still-running checker sends one entry on `updateList`. -/
  | send (s : PipeState) (i : Nat) (h : s.checkers[i]? = some true) :
      PipeStep s { s with
        sendsAfterClose :=
          if s.queueClosed then s.sendsAfterClose + 1 else s.sendsAfterClose }
  /-- a running checker exhausts its input and calls `done.Done()`. -/
  | finish (s : PipeState) (i : Nat) (h : s.checkers[i]? = some true) :
      PipeStep s { s with checkers := s.checkers.set i false, wg := s.wg - 1 }
  /-- step where `chanCloser` returns from `done.Wait()` (counter at zero) and
  closes `updateList`. -/
  | close (s : PipeState) (hw : s.wg = 0) (hc : s.closerWaiting = true) :
      PipeStep s { s with
        closerWaiting := false, queueClosed := true,
        closeEvents := s.closeEvents + 1 }

/-- States reachable from the start state with `n` checkers. -/
def PipeReach (n : Nat) (s : PipeState) : Prop :=
  Relation.ReflTransGen PipeStep (pipeInit n) s

/-- A state in which no component can take a further step. -/
def PipeTerminal (s : PipeState) : Prop := ∀ s', ¬ PipeStep s s'

/-- The inductive invariant of the coordination system. -/
def pipeInv (s : PipeState) : Prop :=
  s.wg = s.checkers.count true ∧
  s.queueClosed = !s.closerWaiting ∧
  s.closeEvents = (if s.queueClosed then 1 else 0) ∧
  (s.queueClosed = true → s.checkers.count true = 0) ∧
  s.sendsAfterClose = 0

/-! ### Helper lemmas -/

/-- A mode whose type bits are all clear has the symlink bit clear. -/
theorem land_symlink_eq_zero {m : Nat} (h : m &&& ModeType = 0) :
    m &&& ModeSymlink = 0 := by
  have hsub : ModeType &&& ModeSymlink = ModeSymlink := by decide
  calc m &&& ModeSymlink = m &&& (ModeType &&& ModeSymlink) := by rw [hsub]
    _ = m &&& ModeType &&& ModeSymlink := (Nat.land_assoc m ModeType ModeSymlink).symm
    _ = 0 := by rw [h]; simp

/-- A regular mode is not a symlink mode. -/
theorem isSymlinkMode_of_regular {m : Nat} (h : isRegularMode m = true) :
    isSymlinkMode m = false := by
  have hz : m &&& ModeType = 0 := by simpa [isRegularMode] using h
  simp [isSymlinkMode, land_symlink_eq_zero hz]

/-- A symlink mode is not a regular mode. -/
theorem isRegularMode_of_symlink {m : Nat} (h : isSymlinkMode m = true) :
    isRegularMode m = false := by
  by_contra hr
  have hr' : isRegularMode m = true := by
    cases hreg : isRegularMode m
    · exact absurd hreg hr
    · rfl
  rw [isSymlinkMode_of_regular hr'] at h
  cases h

/-- Go `strings.TrimPrefix` on an explicit prefix-decomposed string. -/
theorem trimPref_append (a b : String) : trimPref (a ++ b) a = b := by
  have hp : a.data.isPrefixOf (a ++ b).data = true := by
    rw [String.data_append]
    exact List.isPrefixOf_iff_prefix.mpr ⟨b.data, rfl⟩
  rw [trimPref, if_pos hp, String.data_append, List.drop_left]

/-- Go `strings.TrimPrefix` is the identity when the prefix is absent. -/
theorem trimPref_of_not_pref {s pre : String} (h : hasPref s pre = false) :
    trimPref s pre = s := by
  rw [hasPref] at h
  rw [trimPref, if_neg]
  simp [h]

/-- Setting a `true` slot to `false` lowers the `true` count by one. -/
theorem count_true_set_add_one :
    ∀ (l : List Bool) (i : Nat), l[i]? = some true →
      (l.set i false).count true + 1 = l.count true
  | [], i, h => by simp at h
  | a :: as, 0, h => by
    simp only [List.getElem?_cons_zero, Option.some_inj] at h
    subst h
    simp [List.count_cons]
  | a :: as, i + 1, h => by
    simp only [List.getElem?_cons_succ] at h
    have ih := count_true_set_add_one as i h
    simp only [List.set, List.count_cons]
    omega

/-- The invariant holds at the start state. -/
theorem pipeInv_init (n : Nat) : pipeInv (pipeInit n) := by
  refine ⟨?_, rfl, rfl, ?_, rfl⟩
  · simp [pipeInit, List.count_replicate]
  · intro h; cases h

/-- In a state satisfying the invariant that still has a running checker,
the queue is not yet closed. -/
theorem queue_open_of_running {s : PipeState} (hs : pipeInv s) {i : Nat}
    (hi : s.checkers[i]? = some true) : s.queueClosed = false := by
  obtain ⟨_, _, _, h4, _⟩ := hs
  cases hq : s.queueClosed
  · rfl
  · have hz : s.checkers.count true = 0 := h4 hq
    have : true ∉ s.checkers := List.count_eq_zero.mp hz
    exact absurd (List.getElem?_mem hi) this

/-- Every step preserves the invariant. -/
theorem pipeInv_step {s s' : PipeState} (hs : pipeInv s) (h : PipeStep s s') :
    pipeInv s' := by
  cases h with
  | send i hi =>
    obtain ⟨h1, h2, h3, h4, h5⟩ := hs
    have hq := queue_open_of_running ⟨h1, h2, h3, h4, h5⟩ hi
    exact ⟨h1, h2, h3, h4, by simp [hq, h5]⟩
  | finish i hi =>
    obtain ⟨h1, h2, h3, h4, h5⟩ := hs
    have hq := queue_open_of_running ⟨h1, h2, h3, h4, h5⟩ hi
    have hcount := count_true_set_add_one s.checkers i hi
    refine ⟨?_, h2, h3, ?_, h5⟩
    · show s.wg - 1 = (s.checkers.set i false).count true
      omega
    · intro hcl
      rw [hq] at hcl
      cases hcl
  | close hw hc =>
    obtain ⟨h1, h2, h3, h4, h5⟩ := hs
    have hqf : s.queueClosed = false := by rw [h2, hc]; rfl
    refine ⟨h1, rfl, ?_, ?_, h5⟩
    · show s.closeEvents + 1 = 1
      rw [h3, hqf]
      rfl
    · intro _
      show s.checkers.count true = 0
      rw [← h1, hw]

/-- The invariant holds in every reachable state. -/
theorem pipeInv_reach {n : Nat} {s : PipeState} (h : PipeReach n s) :
    pipeInv s := by
  induction h with
  | refl => exact pipeInv_init n
  | tail _ hbc ih => exact pipeInv_step ih hbc

/-- One `syncFiles` iteration adds exactly `regBytes` to the byte
counter: the `io.Copy` return value for a regular entry that passed
`os.Open` and `os.Create`, and nothing otherwise. -/
theorem syncFilesStep_numBytes (src tgt : String) (st : syncStats)
    (file : fileInfo) (o : SyncOracle) :
    (syncFilesStep src tgt st file o).stats.numBytes =
      st.numBytes + regBytes file o := by
  cases hreg : isRegularMode file.info.mode
  · cases hsym : isSymlinkMode file.info.mode
    · simp [syncFilesStep, regBytes, hreg, hsym]
    · cases he : o.lstatExists <;> cases hr : o.removeOk <;> cases hk : o.symlinkOk <;>
        simp [syncFilesStep, regBytes, hreg, hsym, he, hr, hk]
  · cases ho : o.openOk <;> cases hc : o.createOk <;>
      simp [syncFilesStep, syncFile, regBytes, hreg, ho, hc]

/-- Folding the `syncFiles` loop accumulates the `regBytes` of every
entry onto the byte counter. -/
theorem syncFilesFold_numBytes (src tgt : String) :
    ∀ (entries : List (fileInfo × SyncOracle)) (st : syncStats),
      (entries.foldl (fun st e => (syncFilesStep src tgt st e.1 e.2).stats)
          st).numBytes =
        st.numBytes + (entries.map fun e => regBytes e.1 e.2).sum
  | [], st => by simp
  | e :: rest, st => by
    simp only [List.foldl_cons, List.map_cons, List.sum_cons]
    rw [syncFilesFold_numBytes src tgt rest _, syncFilesStep_numBytes]
    omega

/-- The aggregation loop sums the workers' byte counters. -/
theorem aggregate_numBytes_aux :
    ∀ (l : List syncStats) (a : syncStats),
      (l.foldl (fun a b => (⟨a.numFiles + b.numFiles,
          a.numBytes + b.numBytes⟩ : syncStats)) a).numBytes =
        a.numBytes + (l.map syncStats.numBytes).sum
  | [], a => by simp
  | b :: rest, a => by
    simp only [List.foldl_cons, List.map_cons, List.sum_cons]
    rw [aggregate_numBytes_aux rest]
    dsimp only
    omega

/-- The aggregation reports the sum of the workers' byte counters. -/
theorem aggregate_numBytes (l : List syncStats) :
    (aggregate l).numBytes = (l.map syncStats.numBytes).sum := by
  have h := aggregate_numBytes_aux l ⟨0, 0⟩
  simpa [aggregate] using h

/-! ### The claims -/

/-- Claim C1: for a regular-file source entry whose target path exists and
can be inspected, the Staleness Checker forwards the entry to the update
queue if and only if the source's size, mode, or modification time differs
from the target's; when all three are equal, nothing is forwarded. -/
theorem checkTgt_regular_forwards_iff_stale (tgt : String) (srcFile : fileInfo)
    (o : CheckOracle) (info : FileInfoData)
    (hreg : isRegularMode srcFile.info.mode = true)
    (hl : o.lstat = .found info) :
    (checkTgtEntry tgt srcFile o).forward = true ↔
      (srcFile.info.size ≠ info.size ∨ srcFile.info.mode ≠ info.mode ∨
        srcFile.info.modTime ≠ info.modTime) := by
  have hsym := isSymlinkMode_of_regular hreg
  by_cases hd : srcFile.info.size ≠ info.size ∨ srcFile.info.mode ≠ info.mode ∨
      srcFile.info.modTime ≠ info.modTime
  · simp [checkTgtEntry, hl, hsym, hd]
  · simp [checkTgtEntry, hl, hsym, hd]

/-- Witness for C1 at a concrete input: sizes 5 and 6 differ, so the
entry is forwarded. -/
theorem checkTgt_regular_forwards_iff_stale_witness :
    (checkTgtEntry "t" ⟨⟨5, 420, 100⟩, "a.txt", ""⟩
        ⟨.found ⟨6, 420, 100⟩, none⟩).forward = true :=
  (checkTgt_regular_forwards_iff_stale "t" ⟨⟨5, 420, 100⟩, "a.txt", ""⟩
      ⟨.found ⟨6, 420, 100⟩, none⟩ ⟨6, 420, 100⟩ (by decide) rfl).mpr
    (Or.inl (by decide))

/-- Claim C9: when the source entry is a symlink, the target exists and is
itself a symlink, but resolving the target symlink fails, `checkTgt` drops
the entry silently: it is not forwarded and no log message is produced. -/
theorem checkTgt_symlink_resolution_failure_silent (tgt : String)
    (srcFile : fileInfo) (o : CheckOracle) (info : FileInfoData)
    (hsym : isSymlinkMode srcFile.info.mode = true)
    (hl : o.lstat = .found info)
    (htsym : isSymlinkMode info.mode = true)
    (he : o.evalSymlinks = none) :
    checkTgtEntry tgt srcFile o = ⟨false, false⟩ := by
  simp [checkTgtEntry, hl, hsym, htsym, he]

/-- Witness for C9 at a concrete input. -/
theorem checkTgt_symlink_resolution_failure_silent_witness :
    checkTgtEntry "t" ⟨⟨0, ModeSymlink ||| 511, 100⟩, "l", "x"⟩
        ⟨.found ⟨0, ModeSymlink ||| 511, 50⟩, none⟩ = ⟨false, false⟩ :=
  checkTgt_symlink_resolution_failure_silent "t"
    ⟨⟨0, ModeSymlink ||| 511, 100⟩, "l", "x"⟩
    ⟨.found ⟨0, ModeSymlink ||| 511, 50⟩, none⟩ ⟨0, ModeSymlink ||| 511, 50⟩
    (by decide) rfl (by decide) rfl

/-- Claim C4: the Directory Materializer invokes `MkdirAll` (create the
path and all missing ancestors) with the source directory's mode exactly
when the target path does not exist; a pre-existing target path produces
no creation and no log; an error is logged exactly when the path was
absent and the creation itself failed (Go's `MkdirAll` treats an existing
directory as success, so such failures are unrelated to pre-existence). -/
theorem syncDirLayout_materializes_missing_only (tgt : String)
    (dir : fileInfo) (o : DirOracle) :
    (o.lstat = .errNotExist →
      (syncDirLayoutEntry tgt dir o).mkdirAll =
        some (joinPath tgt dir.path, dir.info.mode)) ∧
    (∀ i, o.lstat = .found i → syncDirLayoutEntry tgt dir o = ⟨none, false⟩) ∧
    ((syncDirLayoutEntry tgt dir o).logged = true ↔
      o.lstat = .errNotExist ∧ o.mkdirAllOk = false) := by
  refine ⟨?_, ?_, ?_⟩
  · intro hl
    simp [syncDirLayoutEntry, hl]
  · intro i hl
    simp [syncDirLayoutEntry, hl]
  · cases hl : o.lstat <;> simp [syncDirLayoutEntry, hl]

/-- Witness for C4 at a concrete input: the target path is absent, so
`MkdirAll` runs on the joined path with the source mode. -/
theorem syncDirLayout_materializes_missing_only_witness :
    (syncDirLayoutEntry "t" ⟨⟨0, ModeDir ||| 493, 0⟩, "/a", ""⟩
        ⟨.errNotExist, true⟩).mkdirAll =
      some (joinPath "t" "/a", ModeDir ||| 493) :=
  (syncDirLayout_materializes_missing_only "t" ⟨⟨0, ModeDir ||| 493, 0⟩, "/a", ""⟩
      ⟨.errNotExist, true⟩).1 rfl

/-- Claim C3: for a symlink entry, the Sync Executor's filesystem actions
are fully characterized: a pre-existing object at the target path is
removed first and the link is created only after a successful removal;
when nothing exists at the target path the link is created directly.  The
existing object is never overwritten in place. -/
theorem syncFiles_symlink_remove_before_create (src tgt : String)
    (st : syncStats) (file : fileInfo) (o : SyncOracle)
    (hsym : isSymlinkMode file.info.mode = true) :
    (syncFilesStep src tgt st file o).acts =
      if o.lstatExists then
        if o.removeOk then
          [.remove (joinPath tgt file.path),
           .symlink file.linkPath (joinPath tgt file.path)]
        else [.remove (joinPath tgt file.path)]
      else [.symlink file.linkPath (joinPath tgt file.path)] := by
  have hreg := isRegularMode_of_symlink hsym
  cases he : o.lstatExists <;> cases hr : o.removeOk <;> cases hk : o.symlinkOk <;>
    simp [syncFilesStep, hreg, hsym, he, hr, hk]

/-- Counterexample to claim C2 as stated: at a concrete regular-file
entry whose `io.Copy` fails (3 bytes partially written), the failure is
logged, yet the worker's synced-entry count IS incremented — the entry is
not abandoned. -/
theorem syncFiles_abandon_on_failure_counterexample :
    (syncFilesStep "s" "t" ⟨0, 0⟩ ⟨⟨5, 420, 10⟩, "a.txt", ""⟩
        ⟨true, true, false, 3, true, true, false, true, true⟩).logs =
      ["copy failed"] ∧
    (syncFilesStep "s" "t" ⟨0, 0⟩ ⟨⟨5, 420, 10⟩, "a.txt", ""⟩
        ⟨true, true, false, 3, true, true, false, true, true⟩).stats =
      ⟨1, 3⟩ := by
  constructor <;> rfl

/-- Claim C2 as amended: only `os.Open` and `os.Create` failures (for
regular files) and removal / link-creation failures (for symlinks) are
logged and abandon the entry — the stats are unchanged, there is no retry,
and the worker continues.  Failures of `io.Copy`, `os.Chtimes` and
`os.Chmod` are logged but the entry still completes: its count is
incremented (with any partially copied bytes added). -/
theorem syncFiles_abandon_amended (src tgt : String) (st : syncStats)
    (file : fileInfo) (o : SyncOracle) :
    (isRegularMode file.info.mode = true →
      ((o.openOk = false ∨ o.createOk = false) →
        (syncFilesStep src tgt st file o).stats = st ∧
        (syncFilesStep src tgt st file o).logs ≠ []) ∧
      (o.openOk = true → o.createOk = true →
        (syncFilesStep src tgt st file o).stats.numFiles = st.numFiles + 1 ∧
        (o.copyOk = false → "copy failed" ∈ (syncFilesStep src tgt st file o).logs) ∧
        (o.chtimesOk = false → "chtimes failed" ∈ (syncFilesStep src tgt st file o).logs) ∧
        (o.chmodOk = false → "chmod failed" ∈ (syncFilesStep src tgt st file o).logs))) ∧
    (isSymlinkMode file.info.mode = true →
      (o.lstatExists = true → o.removeOk = false →
        (syncFilesStep src tgt st file o).stats = st ∧
        (syncFilesStep src tgt st file o).logs ≠ []) ∧
      ((o.lstatExists = false ∨ o.removeOk = true) → o.symlinkOk = false →
        (syncFilesStep src tgt st file o).stats = st ∧
        (syncFilesStep src tgt st file o).logs ≠ [])) := by
  constructor
  · intro hreg
    constructor
    · rintro (ho | hc)
      · simp [syncFilesStep, syncFile, hreg, ho]
      · cases ho : o.openOk <;>
          simp [syncFilesStep, syncFile, hreg, ho, hc]
    · intro ho hc
      refine ⟨?_, ?_, ?_, ?_⟩ <;>
        cases hcp : o.copyOk <;> cases hct : o.chtimesOk <;> cases hcm : o.chmodOk <;>
          simp [syncFilesStep, syncFile, hreg, ho, hc, hcp, hct, hcm]
  · intro hsym
    have hreg := isRegularMode_of_symlink hsym
    constructor
    · intro he hr
      simp [syncFilesStep, hreg, hsym, he, hr]
    · rintro (he | hr) hk
      · simp [syncFilesStep, hreg, hsym, he, hk]
      · cases he : o.lstatExists <;>
          simp [syncFilesStep, hreg, hsym, he, hr, hk]

/-- Witness for the amended C2 at a concrete input: `os.Open` fails, the
entry is abandoned with an error logged and the stats untouched. -/
theorem syncFiles_abandon_amended_witness :
    (syncFilesStep "s" "t" ⟨4, 9⟩ ⟨⟨5, 420, 10⟩, "a.txt", ""⟩
        ⟨false, true, true, 0, true, true, false, true, true⟩).stats = ⟨4, 9⟩ ∧
    (syncFilesStep "s" "t" ⟨4, 9⟩ ⟨⟨5, 420, 10⟩, "a.txt", ""⟩
        ⟨false, true, true, 0, true, true, false, true, true⟩).logs ≠ [] :=
  ((syncFiles_abandon_amended "s" "t" ⟨4, 9⟩ ⟨⟨5, 420, 10⟩, "a.txt", ""⟩
      ⟨false, true, true, 0, true, true, false, true, true⟩).1
    (by decide)).1 (Or.inl rfl)

/-- Claim C10: a symlink entry never changes a worker's byte counter and
a successfully recreated symlink increments its entry counter by one; the
aggregated byte total over all workers is exactly the sum of the
`regBytes` contributions, which are nonzero only for regular-file
entries. -/
theorem syncFiles_bytes_from_regular_only (src tgt : String) :
    (∀ (st : syncStats) (file : fileInfo) (o : SyncOracle),
      isSymlinkMode file.info.mode = true →
        (syncFilesStep src tgt st file o).stats.numBytes = st.numBytes ∧
        ((o.lstatExists = true → o.removeOk = true) → o.symlinkOk = true →
          (syncFilesStep src tgt st file o).stats.numFiles = st.numFiles + 1)) ∧
    (∀ workers : List (List (fileInfo × SyncOracle)),
      (aggregate (workers.map (syncFilesRun src tgt))).numBytes =
        (workers.map fun w => (w.map fun e => regBytes e.1 e.2).sum).sum) := by
  constructor
  · intro st file o hsym
    have hreg := isRegularMode_of_symlink hsym
    constructor
    · rw [syncFilesStep_numBytes]
      simp [regBytes, hreg]
    · intro hrm hk
      cases he : o.lstatExists
      · simp [syncFilesStep, hreg, hsym, he, hk]
      · simp [syncFilesStep, hreg, hsym, he, hrm he, hk]
  · intro workers
    rw [aggregate_numBytes, List.map_map]
    refine congrArg List.sum (List.map_congr_left fun w _ => ?_)
    have h := syncFilesFold_numBytes src tgt w ⟨0, 0⟩
    simpa [syncFilesRun] using h

/-- Witness for C10 at a concrete input: a successful symlink recreation
moves the stats from (2 files, 7 bytes) to (3 files, 7 bytes). -/
theorem syncFiles_bytes_from_regular_only_witness :
    (syncFilesStep "s" "t" ⟨2, 7⟩ ⟨⟨0, ModeSymlink ||| 511, 0⟩, "c", "../x"⟩
        ⟨true, true, true, 0, true, true, false, true, true⟩).stats.numBytes = 7 ∧
    (syncFilesStep "s" "t" ⟨2, 7⟩ ⟨⟨0, ModeSymlink ||| 511, 0⟩, "c", "../x"⟩
        ⟨true, true, true, 0, true, true, false, true, true⟩).stats.numFiles = 3 :=
  ⟨((syncFiles_bytes_from_regular_only "s" "t").1 ⟨2, 7⟩
      ⟨⟨0, ModeSymlink ||| 511, 0⟩, "c", "../x"⟩
      ⟨true, true, true, 0, true, true, false, true, true⟩ (by decide)).1,
   ((syncFiles_bytes_from_regular_only "s" "t").1 ⟨2, 7⟩
      ⟨⟨0, ModeSymlink ||| 511, 0⟩, "c", "../x"⟩
      ⟨true, true, true, 0, true, true, false, true, true⟩ (by decide)).2
     (fun _ => rfl) rfl⟩

/-- Counterexample to claim C6 as stated: a symlink at `s/a/b/l` whose
target resolves to the relative path `s/c` (a link pointing outside its
own directory, e.g. at `../../c`) is emitted with `linkTarget = "s/c"`,
which is NOT expressed relative to the link's containing directory
`s/a/b`: interpreting it there yields `s/a/b/s/c`, not `s/c`. -/
theorem parseSrcFiles_linkTarget_relative_counterexample :
    (parseSrcFilesVisit "s" ⟨"s/a/b/l", ⟨0, ModeSymlink ||| 511, 0⟩, false,
        some "s/c"⟩).emitted =
      some ⟨⟨0, ModeSymlink ||| 511, 0⟩, "a/b/l", "s/c"⟩ ∧
    isAbs "s/c" = false ∧
    expressedRelativeTo "s/c" (dirPath "s/a/b/l") "s/c" = false := by decide

/-- Claim C6 as amended: absolute resolved targets are preserved
verbatim; a relative resolved target is expressed relative to the link's
containing directory only when it extends that directory's path (the
prefix is stripped); any other relative resolved target passes through
unchanged. -/
theorem parseSrcFiles_linkTarget_amended (src : String) (node : WalkNode)
    (symp : String) (e : fileInfo)
    (hw : node.walkErr = false) (hd : isDirMode node.info.mode = false)
    (hs : isSymlinkMode node.info.mode = true)
    (he : node.evalSymlinks = some symp)
    (hem : (parseSrcFilesVisit src node).emitted = some e) :
    (isAbs symp = true → e.linkPath = symp) ∧
    (∀ r, isAbs symp = false → symp = dirPath node.p ++ "/" ++ r →
      e.linkPath = r ∧ dirPath node.p ++ "/" ++ e.linkPath = symp) ∧
    (isAbs symp = false → hasPref symp (dirPath node.p ++ "/") = false →
      e.linkPath = symp) := by
  simp [parseSrcFilesVisit, hw, hd, hs, he] at hem
  refine ⟨?_, ?_, ?_⟩
  · intro ha
    rw [← hem]
    simp [ha]
  · intro r ha hr
    have hlp : e.linkPath = r := by
      rw [← hem]
      simp only [ha]
      rw [hr]
      simpa using trimPref_append (dirPath node.p ++ "/") r
    exact ⟨hlp, by rw [hlp, ← hr]⟩
  · intro ha hnp
    rw [← hem]
    simp only [ha]
    simpa using trimPref_of_not_pref hnp

/-- Witness for the amended C6 at a concrete input: a link at `s/a/l`
resolving to `s/a/x` inside its own directory is stored as `x`, which
joined back onto `s/a` gives `s/a/x`. -/
theorem parseSrcFiles_linkTarget_amended_witness :
    (⟨⟨0, ModeSymlink ||| 511, 0⟩, "a/l", "x"⟩ : fileInfo).linkPath = "x" ∧
    dirPath "s/a/l" ++ "/" ++
        (⟨⟨0, ModeSymlink ||| 511, 0⟩, "a/l", "x"⟩ : fileInfo).linkPath =
      "s/a/x" :=
  (parseSrcFiles_linkTarget_amended "s"
      ⟨"s/a/l", ⟨0, ModeSymlink ||| 511, 0⟩, false, some "s/a/x"⟩ "s/a/x"
      ⟨⟨0, ModeSymlink ||| 511, 0⟩, "a/l", "x"⟩ rfl (by decide) (by decide) rfl
      (by decide)).2.1 "x" (by decide) (by decide)

/-- Counterexample to claim C7 as stated: the Directory Producer emits
the directory `s/a` with path `"/a"` — `strings.TrimPrefix(p, src)` keeps
the separator, so the path has a leading separator and is not
normalized. -/
theorem parseSrcDirs_path_counterexample :
    (parseSrcDirsVisit "s" ⟨"s/a", ⟨0, ModeDir ||| 493, 0⟩, false, none⟩).emitted =
      some ⟨⟨0, ModeDir ||| 493, 0⟩, "/a", ""⟩ ∧
    normalizedPath "/a" = false ∧
    hasPref "/a" "/" = true := by decide

/-- Claim C7 as amended: for a node at `src ++ "/" ++ rest`, the File
Producer emits the root-relative path `rest` (normalized whenever the
walk-supplied `rest` is), but the Directory Producer emits `"/" ++ rest`,
which carries a leading path separator. -/
theorem parseSrc_path_shape_amended (src rest : String) (node : WalkNode)
    (e : fileInfo) (hw : node.walkErr = false)
    (hp : node.p = src ++ "/" ++ rest) :
    ((parseSrcDirsVisit src node).emitted = some e →
      e.path = "/" ++ rest ∧ hasPref e.path "/" = true) ∧
    ((parseSrcFilesVisit src node).emitted = some e →
      e.path = rest ∧ (normalizedPath rest = true → normalizedPath e.path = true)) := by
  have hdirs : trimPref node.p src = "/" ++ rest := by
    rw [hp, String.append_assoc]
    exact trimPref_append src ("/" ++ rest)
  have hfiles : trimPref node.p (src ++ "/") = rest := by
    rw [hp]
    exact trimPref_append (src ++ "/") rest
  have hpref : hasPref ("/" ++ rest) "/" = true := by
    rw [hasPref, String.data_append]
    exact List.isPrefixOf_iff_prefix.mpr ⟨rest.data, rfl⟩
  constructor
  · intro hem
    cases hdir : isDirMode node.info.mode
    · simp [parseSrcDirsVisit, hw, hdir] at hem
    · simp [parseSrcDirsVisit, hw, hdir] at hem
      rw [← hem]
      dsimp only
      exact ⟨hdirs, by rw [hdirs]; exact hpref⟩
  · intro hem
    cases hdir : isDirMode node.info.mode
    · cases hsym : isSymlinkMode node.info.mode
      · simp [parseSrcFilesVisit, hw, hdir, hsym] at hem
        rw [← hem]
        dsimp only
        exact ⟨hfiles, by rw [hfiles]; exact fun h => h⟩
      · cases hev : node.evalSymlinks with
        | none => simp [parseSrcFilesVisit, hw, hdir, hsym, hev] at hem
        | some symp =>
          simp [parseSrcFilesVisit, hw, hdir, hsym, hev] at hem
          rw [← hem]
          dsimp only
          exact ⟨hfiles, by rw [hfiles]; exact fun h => h⟩
    · simp [parseSrcFilesVisit, hw, hdir] at hem

/-- Witness for the amended C7 at a concrete input: the directory node
`s/a` yields the path `"/a"`, which starts with a separator. -/
theorem parseSrc_path_shape_amended_witness :
    (⟨⟨0, ModeDir ||| 493, 0⟩, "/a", ""⟩ : fileInfo).path = "/" ++ "a" ∧
    hasPref (⟨⟨0, ModeDir ||| 493, 0⟩, "/a", ""⟩ : fileInfo).path "/" = true :=
  (parseSrc_path_shape_amended "s" "a"
      ⟨"s/a", ⟨0, ModeDir ||| 493, 0⟩, false, none⟩
      ⟨⟨0, ModeDir ||| 493, 0⟩, "/a", ""⟩ rfl (by decide)).1 (by decide)

/-- Counterexample to claim C8 as stated: a symlink at `s/l` whose target
resolution fails is dropped without any log message — the callback
returns nil at once, so `logged` is `false`, not `true` as the claim
requires. -/
theorem parseSrcFiles_symlink_failure_counterexample :
    parseSrcFilesVisit "s" ⟨"s/l", ⟨0, ModeSymlink ||| 511, 0⟩, false, none⟩ =
      ⟨none, false⟩ := by decide

/-- Claim C8 as amended: for every symlink whose target resolution fails,
the File Producer emits no entry and logs nothing — the failure is
silently ignored and the traversal continues with the remaining
objects. -/
theorem parseSrcFiles_symlink_failure_amended (src : String) (node : WalkNode)
    (hw : node.walkErr = false) (hd : isDirMode node.info.mode = false)
    (hs : isSymlinkMode node.info.mode = true)
    (he : node.evalSymlinks = none) :
    parseSrcFilesVisit src node = ⟨none, false⟩ := by
  simp [parseSrcFilesVisit, hw, hd, hs, he]

/-- Witness for the amended C8 at a concrete input. -/
theorem parseSrcFiles_symlink_failure_amended_witness :
    parseSrcFilesVisit "s" ⟨"s/d/l2", ⟨0, ModeSymlink ||| 448, 0⟩, false, none⟩ =
      ⟨none, false⟩ :=
  parseSrcFiles_symlink_failure_amended "s"
    ⟨"s/d/l2", ⟨0, ModeSymlink ||| 448, 0⟩, false, none⟩ rfl (by decide)
    (by decide) rfl

/-- Claim C5: in every reachable state of the checker / closer system,
`updateList` has been closed at most once, a closed queue implies every
Staleness Checker has finished, no send ever happens after the close, and
every completed (stuck) execution has performed the close exactly once. -/
theorem updateList_closed_once_after_checkers (n : Nat) (s : PipeState)
    (h : PipeReach n s) :
    s.closeEvents ≤ 1 ∧
    (s.queueClosed = true → ∀ b ∈ s.checkers, b = false) ∧
    s.sendsAfterClose = 0 ∧
    (PipeTerminal s → s.closeEvents = 1) := by
  obtain ⟨h1, h2, h3, h4, h5⟩ := pipeInv_reach h
  refine ⟨?_, ?_, h5, ?_⟩
  · rw [h3]
    cases s.queueClosed <;> simp
  · intro hq b hb
    have hnt : true ∉ s.checkers := List.count_eq_zero.mp (h4 hq)
    cases b
    · rfl
    · exact absurd hb hnt
  · intro hterm
    cases hcw : s.closerWaiting
    · rw [h3, h2, hcw]
      rfl
    · by_cases hwz : s.wg = 0
      · exact absurd (PipeStep.close s hwz hcw) (hterm _)
      · have hcnt : s.checkers.count true ≠ 0 := by rw [← h1]; exact hwz
        have hmem : true ∈ s.checkers := by
          by_contra hx
          exact hcnt (List.count_eq_zero.mpr hx)
        obtain ⟨i, hi⟩ := List.mem_iff_getElem?.mp hmem
        exact absurd (PipeStep.finish s i hi) (hterm _)

/-- Witness for C5 at the concrete start state with the source's three
checker goroutines. -/
theorem updateList_closed_once_after_checkers_witness :
    (pipeInit 3).closeEvents ≤ 1 ∧
    ((pipeInit 3).queueClosed = true → ∀ b ∈ (pipeInit 3).checkers, b = false) ∧
    (pipeInit 3).sendsAfterClose = 0 ∧
    (PipeTerminal (pipeInit 3) → (pipeInit 3).closeEvents = 1) :=
  updateList_closed_once_after_checkers 3 (pipeInit 3) Relation.ReflTransGen.refl

/-- Witness for C3 at a concrete input: target object present, removal
succeeds, so the trace is remove-then-symlink. -/
theorem syncFiles_symlink_remove_before_create_witness :
    (syncFilesStep "s" "t" ⟨0, 0⟩ ⟨⟨0, ModeSymlink ||| 511, 0⟩, "c", "../x"⟩
        ⟨true, true, true, 0, true, true, true, true, true⟩).acts =
      if true then
        if true then [.remove (joinPath "t" "c"),
                      .symlink "../x" (joinPath "t" "c")]
        else [.remove (joinPath "t" "c")]
      else [.symlink "../x" (joinPath "t" "c")] :=
  syncFiles_symlink_remove_before_create "s" "t" ⟨0, 0⟩
    ⟨⟨0, ModeSymlink ||| 511, 0⟩, "c", "../x"⟩
    ⟨true, true, true, 0, true, true, true, true, true⟩ (by decide)

end Syngo
